import Mathlib

/-!
Shallow embedding of `src/iqfeed.go` (package `iqfeed`), the framing/dispatch
core of an IQFeed market-data client.  Go byte slices are modelled as
`List Char` (the records in question are ASCII, so byte and char positions
coincide; a nil Go slice has length 0 and behaves as `[]`), Go channel sends
as an explicit list of (queue, message) pushes returned by each processing
function, the mutable `IQC` struct as an explicit state record, and a Go
runtime panic as an `Option` result of `none`.
-/

namespace IQFeed

/-- Go `strings.Split(string(d), ",")`: the comma-separated fields of a byte
slice, in order; the empty input yields one empty field, and the result is
always nonempty. -/
def splitComma : List Char → List String
  | [] => [""]
  | ch :: rest =>
    if ch = ',' then "" :: splitComma rest
    else
      match splitComma rest with
      | [] => [String.mk [ch]]
      | f :: fs => String.mk (ch :: f.data) :: fs

/-- Modelled from the spec: `ErrorMsg.UnMarshall` lives outside `src/`; per the
spec an ErrorEvent carries a boolean symbol-not-found flag, a numeric code
(404 for not-found, 500 for generic error text) and the raw offending payload. -/
structure ErrorMsg where
  symbolNotFound : Bool
  data : String
  code : Nat
deriving DecidableEq, Repr

/-- Modelled from the spec: constructs the ErrorEvent from the flag, the raw
payload and the code, mirroring the call shape `e.UnMarshall(flag, d, code)`. -/
def ErrorMsg.unMarshall (flag : Bool) (d : String) (code : Nat) : ErrorMsg :=
  ⟨flag, d, code⟩

/-- Modelled from the spec: the per-kind payload parsers are external
collaborators (pure data transformation); each typed message is represented by
the raw payload it was built from, which is all the dispatch layer inspects. -/
inductive Msg where
  | system (raw : String)
  | news (raw : String)
  | err (e : ErrorMsg)
  | fundamental (raw : String)
  | regional (raw : String)
  | timeSync (raw : String)
  | update (items : List String)
deriving DecidableEq, Repr

/-- The seven consumer-facing output queues of the `IQC` struct. -/
inductive Queue where
  | system | news | errors | fundamental | regional | time | updates
deriving DecidableEq, Repr

/-- A (queue, message) push, modelling one Go channel send `c.Q <- m`. -/
abbrev Push := Queue × Msg

/-- The mutable state of the `IQC` struct that dispatch touches: the dynamic
field directory `DynFields` (Go `map[int]string`, modelled as a partial map),
and the request-id counter pair.  `previousRequestId` is a Go `int64`. -/
structure IQC where
  DynFields : Nat → Option String
  previousRequestId : Int
  requestId : String

/-- The body of the Go loop `for i := 1; i < len(pfx); i++ { m[i-1] = pfx[i] }`
in `processSysMsg`: `storeFields m i ts` stores the tokens `ts` into the map
starting at index `i` (callers pass `i = 0` and `ts = pfx` minus its head). -/
def storeFields (m : Nat → Option String) (i : Nat) : List String → (Nat → Option String)
  | [] => m
  | t :: ts => storeFields (fun j => if j = i then some t else m j) (i + 1) ts

/-- Go `processSysMsg`: splits the payload on commas; a first field
`UPDATE FIELDNAMES` or `CURRENT UPDATE FIELDNAMES` writes the remaining tokens
into `DynFields` (indices shifted down by one) and emits nothing; any other
payload is parsed into a SystemMessage and sent on the System channel. -/
def processSysMsg (c : IQC) (d : List Char) : IQC × List Push :=
  if (splitComma d).headI = "UPDATE FIELDNAMES" then
    ({ c with DynFields := storeFields c.DynFields 0 (splitComma d).tail }, [])
  else if (splitComma d).headI = "CURRENT UPDATE FIELDNAMES" then
    ({ c with DynFields := storeFields c.DynFields 0 (splitComma d).tail }, [])
  else (c, [(.system, .system (String.mk d))])

/-- Go `processSummaryMsg`: splits on commas, unmarshalls, sends on Updates. -/
def processSummaryMsg (c : IQC) (d : List Char) : IQC × List Push :=
  (c, [(.updates, .update (splitComma d))])

/-- Go `process404Msg`: sends `ErrorMsg.UnMarshall(true, d, 404)` on Errors. -/
def process404Msg (c : IQC) (d : List Char) : IQC × List Push :=
  (c, [(.errors, .err (ErrorMsg.unMarshall true (String.mk d) 404))])

/-- Go `processErrorMsg`: sends `ErrorMsg.UnMarshall(false, d, 500)` on Errors. -/
def processErrorMsg (c : IQC) (d : List Char) : IQC × List Push :=
  (c, [(.errors, .err (ErrorMsg.unMarshall false (String.mk d) 500))])

/-- Go `processUpdMsg`: splits on commas and reads `items[2]` unconditionally;
when fewer than 3 fields exist the Go indexing panics, modelled as `none`.
Field 2 equal to `"Not Found"` re-dispatches field 0 through `process404Msg`;
otherwise the items are unmarshalled and sent on Updates. -/
def processUpdMsg (c : IQC) (d : List Char) : Option (IQC × List Push) :=
  if 2 < (splitComma d).length then
    if (splitComma d).getD 2 "" = "Not Found" then
      some (process404Msg c ((splitComma d).headI).data)
    else
      some (c, [(.updates, .update (splitComma d))])
  else none

/-- Go `processTimeMsg`: unmarshalls and sends on Time. -/
def processTimeMsg (c : IQC) (d : List Char) : IQC × List Push :=
  (c, [(.time, .timeSync (String.mk d))])

/-- Go `processRegUpdMsg`: unmarshalls and sends on Regional. -/
def processRegUpdMsg (c : IQC) (d : List Char) : IQC × List Push :=
  (c, [(.regional, .regional (String.mk d))])

/-- Go `processFndMsg`: unmarshalls and sends on Fundamental. -/
def processFndMsg (c : IQC) (d : List Char) : IQC × List Push :=
  (c, [(.fundamental, .fundamental (String.mk d))])

/-- Go `processNewsMsg`: unmarshalls and sends on News. -/
def processNewsMsg (c : IQC) (d : List Char) : IQC × List Push :=
  (c, [(.news, .news (String.mk d))])

/-- Go `processReceiver`: drops records shorter than 3 bytes (a nil Go slice
has length 0 and is covered by the same test), otherwise switches on byte 0
and passes bytes from offset 2 on as the payload.  The `none` result
propagates the panic possible inside `processUpdMsg`. -/
def processReceiver (c : IQC) (d : List Char) : Option (IQC × List Push) :=
  if d.length < 3 then some (c, [])
  else
    let data := d.drop 2
    if d.headI = 'S' then some (processSysMsg c data)
    else if d.headI = 'P' then some (processSummaryMsg c data)
    else if d.headI = 'Q' then processUpdMsg c data
    else if d.headI = 'T' then some (processTimeMsg c data)
    else if d.headI = 'R' then some (processRegUpdMsg c data)
    else if d.headI = 'F' then some (processFndMsg c data)
    else if d.headI = 'N' then some (processNewsMsg c data)
    else if d.headI = 'n' then some (process404Msg c data)
    else if d.headI = 'E' then some (processErrorMsg c data)
    else some (c, [])

/-- Two's-complement wrap-around of a mathematical integer into the Go `int64`
range, as performed by native 64-bit addition. -/
def int64Wrap (n : Int) : Int :=
  (n + 9223372036854775808) % 18446744073709551616 - 9223372036854775808

/-- Go `incr`: `atomic.AddInt64(&c.previousRequestId, 1)` (64-bit wrapping
add returning the new value), then `c.requestId = fmt.Sprintf("%d", v)`,
returning the new string. -/
def incr (c : IQC) : IQC × String :=
  let v := int64Wrap (c.previousRequestId + 1)
  ({ c with previousRequestId := v, requestId := toString v }, toString v)

/-- Errors reported by `bufio.Reader.ReadLine`: end-of-stream (`io.EOF`) or
any other error (carrying its text). -/
inductive ReadErr where
  | eof
  | other (msg : String)
deriving DecidableEq, Repr

/-- One result of `ReadLine`: the line, the truncated-line flag (true when
the internal buffer was too small to hold the whole record), and the error
(`none` for a successful read). -/
structure ReadResult where
  line : List Char
  truncated : Bool
  err : Option ReadErr
deriving DecidableEq, Repr

/-- What one iteration of the outer loop of Go `read` does after its inner
read loop exits: either fall through to the next iteration, or close the
connection and return from `read`. -/
inductive LoopAction where
  | continueLoop
  | closeAndReturn
deriving DecidableEq, Repr

/-- The lines the inner loop of Go `read` hands to `processReceiver`: it keeps
dispatching while the read succeeded (`err == nil`) and was not truncated,
and stops at the first truncated or failed read, which is never dispatched. -/
def dispatchedLines : List ReadResult → List (List Char)
  | [] => []
  | r :: rest =>
      if r.err = none ∧ r.truncated = false then r.line :: dispatchedLines rest
      else []

/-- The pair (truncated-line flag, error) the inner loop of Go `read` exits
with, given the sequence of `ReadLine` results of this outer-loop iteration. -/
def exitState : List ReadResult → Bool × Option ReadErr
  | [] => (false, none)
  | r :: rest =>
      if r.err = none ∧ r.truncated = false then exitState rest
      else (r.truncated, r.err)

/-- The tail of one outer-loop iteration of Go `read`: after the truncated-line
log (which does not return), the code runs `if err != io.EOF { log;
c.Conn.Close(); return }`, so every exit error other than `io.EOF` — including
a nil error — closes the connection and returns. -/
def readIterAction (e : Option ReadErr) : LoopAction :=
  if e = some ReadErr.eof then .continueLoop else .closeAndReturn

/-- The outer loop of Go `read` over successive iterations (each element of
the input is the `ReadLine` result sequence of one iteration), collecting
every line handed to `processReceiver`; the loop stops when an iteration's
action is close-and-return. -/
def readLoop : List (List ReadResult) → List (List Char)
  | [] => []
  | rs :: rest =>
      match readIterAction (exitState rs).2 with
      | .closeAndReturn => dispatchedLines rs
      | .continueLoop => dispatchedLines rs ++ readLoop rest

/-- Go `getCallChar`: switch on `t.Month().String()`, January..December map
to A..L, with an (unreachable for valid times) fallback of "A". -/
def getCallChar (month : String) : String :=
  if month = "January" then "A"
  else if month = "February" then "B"
  else if month = "March" then "C"
  else if month = "April" then "D"
  else if month = "May" then "E"
  else if month = "June" then "F"
  else if month = "July" then "G"
  else if month = "August" then "H"
  else if month = "September" then "I"
  else if month = "October" then "J"
  else if month = "November" then "K"
  else if month = "December" then "L"
  else "A"

/-- Go `getPutChar`: switch on `t.Month().String()`, January..December map
to M..X, with an (unreachable for valid times) fallback of "M". -/
def getPutChar (month : String) : String :=
  if month = "January" then "M"
  else if month = "February" then "N"
  else if month = "March" then "O"
  else if month = "April" then "P"
  else if month = "May" then "Q"
  else if month = "June" then "R"
  else if month = "July" then "S"
  else if month = "August" then "T"
  else if month = "September" then "U"
  else if month = "October" then "V"
  else if month = "November" then "W"
  else if month = "December" then "X"
  else "M"

/-- The twelve strings `time.Month.String()` produces for the months of a
valid Go `time.Time`, in calendar order. -/
def monthNames : List String :=
  ["January", "February", "March", "April", "May", "June",
   "July", "August", "September", "October", "November", "December"]

/-- The month name of month `m` (0-based). -/
def monthName (m : Fin 12) : String := monthNames.getD m.val ""

/-- A convenient concrete state: empty field directory, zeroed counter. -/
def st0 : IQC := ⟨fun _ => none, 0, ""⟩

/-- A state whose field directory already has entries at indices 0 and 1. -/
def st1 : IQC :=
  ⟨fun j => if j = 0 then some "a" else if j = 1 then some "b" else none, 0, ""⟩

/-- Pointwise description of the Go assignment loop in `processSysMsg`:
indices `[i, i + ts.length)` now hold the tokens, every other index keeps its
previous binding (the loop never deletes map entries). -/
theorem storeFields_get (ts : List String) (m : Nat → Option String) (i j : Nat) :
    storeFields m i ts j =
      if i ≤ j ∧ j < i + ts.length then some (ts.getD (j - i) "") else m j := by
  induction ts generalizing m i with
  | nil =>
      rw [storeFields, if_neg]
      simp only [List.length_nil]
      omega
  | cons t ts ih =>
      rw [storeFields, ih]
      by_cases h1 : i + 1 ≤ j ∧ j < i + 1 + ts.length
      · rw [if_pos h1, if_pos (by simp only [List.length_cons]; omega)]
        have hj : j - i = (j - (i + 1)) + 1 := by omega
        rw [hj, List.getD_cons_succ]
      · rw [if_neg h1]
        by_cases h2 : j = i
        · subst h2
          rw [if_pos rfl, if_pos (by simp only [List.length_cons]; omega)]
          rw [Nat.sub_self, List.getD_cons_zero]
        · rw [if_neg h2, if_neg (by simp only [List.length_cons]; omega)]

/-- C1: after an `UPDATE FIELDNAMES` / `CURRENT UPDATE FIELDNAMES` control
record with N name tokens, `DynFields` maps every index in `[0, N)` to the
corresponding token — but the Go loop writes into the existing map without
clearing it, so every index outside `[0, N)` keeps its previous binding:
the new definition is merged into, not substituted for, the old contents.
No message is pushed. -/
theorem c1_fieldnames_merge (c : IQC) (p : List Char) (hne : 0 < p.length)
    (hctl : (splitComma p).headI = "UPDATE FIELDNAMES" ∨
            (splitComma p).headI = "CURRENT UPDATE FIELDNAMES") :
    processReceiver c ('S' :: ',' :: p) =
      some ({ c with DynFields := fun j =>
          (if j < (splitComma p).tail.length
           then some ((splitComma p).tail.getD j "")
           else c.DynFields j) }, []) := by
  have hlen : ¬ ('S' :: ',' :: p).length < 3 := by
    simp only [List.length_cons]
    omega
  have hsf : storeFields c.DynFields 0 (splitComma p).tail = fun j =>
      (if j < (splitComma p).tail.length
       then some ((splitComma p).tail.getD j "")
       else c.DynFields j) := by
    funext j
    rw [storeFields_get]
    simp
  have step1 : processReceiver c ('S' :: ',' :: p) = some (processSysMsg c p) := by
    simp only [processReceiver]
    rw [if_neg hlen]
    rfl
  rw [step1]
  rcases hctl with h | h
  · rw [processSysMsg, if_pos h, hsf]
  · by_cases h2 : (splitComma p).headI = "UPDATE FIELDNAMES"
    · rw [processSysMsg, if_pos h2, hsf]
    · rw [processSysMsg, if_neg h2, if_pos h, hsf]

/-- Witness for C1 at a concrete control record with two name tokens. -/
theorem c1_fieldnames_merge_witness :
    processReceiver st0 ('S' :: ',' :: "UPDATE FIELDNAMES,Symbol,Last".data) =
      some ({ st0 with DynFields := fun j =>
          (if j < (splitComma "UPDATE FIELDNAMES,Symbol,Last".data).tail.length
           then some ((splitComma "UPDATE FIELDNAMES,Symbol,Last".data).tail.getD j "")
           else st0.DynFields j) }, []) :=
  c1_fieldnames_merge st0 "UPDATE FIELDNAMES,Symbol,Last".data (by decide) (Or.inl rfl)

/-- Counterexample to C1 as stated: in `st1` index 1 is bound to `"b"`; the
control record `S,UPDATE FIELDNAMES,x` carries N = 1 token, yet after
processing, index 1 (which is ≥ N) is still resolvable and still bound to
`"b"`, so the old contents were not replaced. -/
theorem c1_fieldnames_replace_false :
    (processReceiver st1 ('S' :: ',' :: "UPDATE FIELDNAMES,x".data)).elim False
      (fun q => q.1.DynFields 0 = some "x" ∧ q.1.DynFields 1 = some "b" ∧ q.2 = []) ∧
    (splitComma "UPDATE FIELDNAMES,x".data).tail.length = 1 ∧
    st1.DynFields 1 = some "b" :=
  ⟨⟨rfl, rfl, rfl⟩, rfl, rfl⟩

/-- C6: a record that is `nil` (length 0 in Go) or shorter than 3 bytes is
dropped: no push on any queue, and the state — `DynFields` included — is
returned unchanged. -/
theorem c6_short_records_dropped (c : IQC) (l : List Char) (h : l.length < 3) :
    processReceiver c l = some (c, []) := by
  simp only [processReceiver]
  rw [if_pos h]

/-- Witness for C6 at a concrete 2-byte record. -/
theorem c6_short_records_dropped_witness :
    processReceiver st0 ['Q', ','] = some (st0, []) :=
  c6_short_records_dropped st0 ['Q', ','] (by decide)

/-- C7: an n-marker record pushes exactly one ErrorMsg with code 404 and
symbol-not-found flag true, built from the payload, onto Errors; an E-marker
record pushes exactly one ErrorMsg with code 500 and flag false; in both
cases the push list is that single Errors push, so no other queue receives
anything and the state is unchanged. -/
theorem c7_error_markers (c : IQC) (p : List Char) (hne : 0 < p.length) :
    processReceiver c ('n' :: ',' :: p) =
      some (c, [(.errors, .err (ErrorMsg.unMarshall true (String.mk p) 404))]) ∧
    processReceiver c ('E' :: ',' :: p) =
      some (c, [(.errors, .err (ErrorMsg.unMarshall false (String.mk p) 500))]) := by
  have h1 : ¬ ('n' :: ',' :: p).length < 3 := by
    simp only [List.length_cons]
    omega
  have h2 : ¬ ('E' :: ',' :: p).length < 3 := by
    simp only [List.length_cons]
    omega
  constructor
  · simp only [processReceiver]
    rw [if_neg h1]
    rfl
  · simp only [processReceiver]
    rw [if_neg h2]
    rfl

/-- Witness for C7 at the spec scenario `n,MSFQQ` and a concrete E record. -/
theorem c7_error_markers_witness :
    processReceiver st0 ('n' :: ',' :: "MSFQQ".data) =
      some (st0, [(.errors, .err (ErrorMsg.unMarshall true (String.mk "MSFQQ".data) 404))]) ∧
    processReceiver st0 ('E' :: ',' :: "MSFQQ".data) =
      some (st0, [(.errors, .err (ErrorMsg.unMarshall false (String.mk "MSFQQ".data) 500))]) :=
  c7_error_markers st0 "MSFQQ".data (by decide)

/-- C2 (code bug): when `ReadLine` reports a truncated record (truncated-line
flag true, error nil), the truncated line is indeed never handed to
`processReceiver` — but the loop does NOT continue: since a nil error differs
from `io.EOF`, the `err != io.EOF` branch fires, so the reader closes the
connection and returns, contradicting the claim (and the code's own comment
next to the commented-out early return). -/
theorem c2_truncated_line_terminates :
    dispatchedLines [⟨"AAAA".data, true, none⟩] = [] ∧
    (exitState [⟨"AAAA".data, true, none⟩]).2 = none ∧
    readIterAction (exitState [⟨"AAAA".data, true, none⟩]).2 = .closeAndReturn ∧
    readLoop [[⟨"AAAA".data, true, none⟩], [⟨"TBBB".data, false, some .eof⟩]] = [] :=
  ⟨rfl, rfl, rfl, rfl⟩

/-- C3 (code bug): `processUpdMsg` indexes `items[2]` without checking the
field count, so a well-formed 4-byte Q-marker record whose payload has a
single comma field makes dispatch panic (modelled as `none`) instead of
being handled, contradicting the spec rule that no parser may terminate the
dispatch loop. -/
theorem c3_q_record_panics :
    processReceiver st0 ('Q' :: ',' :: "ab".data) = none ∧
    (splitComma "ab".data).length = 1 :=
  ⟨rfl, rfl⟩

/-- C4: a Q-marker record whose payload has comma field 2 equal to
`Not Found` produces exactly one push: an ErrorMsg with code 404 and
symbol-not-found flag true built from comma field 0, on the Errors queue;
nothing is pushed to Updates and the state is unchanged. -/
theorem c4_not_found_dispatch (c : IQC) (p : List Char) (hne : 0 < p.length)
    (h3 : 2 < (splitComma p).length)
    (hnf : (splitComma p).getD 2 "" = "Not Found") :
    processReceiver c ('Q' :: ',' :: p) =
      some (c, [(.errors,
        .err (ErrorMsg.unMarshall true (String.mk ((splitComma p).headI).data) 404))]) := by
  have hlen : ¬ ('Q' :: ',' :: p).length < 3 := by
    simp only [List.length_cons]
    omega
  have step1 : processReceiver c ('Q' :: ',' :: p) = processUpdMsg c p := by
    simp only [processReceiver]
    rw [if_neg hlen]
    rfl
  rw [step1, processUpdMsg, if_pos h3, if_pos hnf]
  rfl

/-- Witness for C4 at the concrete record `Q,GOOG,0,Not Found`. -/
theorem c4_not_found_dispatch_witness :
    processReceiver st0 ('Q' :: ',' :: "GOOG,0,Not Found".data) =
      some (st0, [(.errors,
        .err (ErrorMsg.unMarshall true
          (String.mk ((splitComma "GOOG,0,Not Found".data).headI).data) 404))]) :=
  c4_not_found_dispatch st0 "GOOG,0,Not Found".data (by decide) (by decide) (by decide)

/-- C5: end-of-stream alone never terminates the reader — an iteration whose
inner loop exits with `io.EOF` continues the outer loop, which re-issues
reads, so later iterations still dispatch; and among actual read errors
(non-nil), exactly the non-EOF ones make the reader close the connection
and return. -/
theorem c5_eof_not_terminal (e : ReadErr) (rs : List ReadResult)
    (rest : List (List ReadResult)) :
    (readIterAction (some e) = .closeAndReturn ↔ e ≠ .eof) ∧
    ((exitState rs).2 = some .eof →
      readLoop (rs :: rest) = dispatchedLines rs ++ readLoop rest) := by
  constructor
  · cases e <;> simp [readIterAction]
  · intro h
    simp [readLoop, h, readIterAction]

/-- Witness for C5: a non-EOF error terminates; an EOF iteration lets the
following iteration's line be dispatched. -/
theorem c5_eof_not_terminal_witness :
    readIterAction (some (ReadErr.other "broken pipe")) = .closeAndReturn ∧
    readLoop [[⟨[], false, some .eof⟩], [⟨"T,x".data, false, some .eof⟩]] =
      dispatchedLines [⟨[], false, some .eof⟩] ++
        readLoop [[⟨"T,x".data, false, some .eof⟩]] :=
  ⟨(c5_eof_not_terminal (ReadErr.other "broken pipe") [] []).1.mpr (by decide),
   (c5_eof_not_terminal (ReadErr.other "broken pipe")
      [⟨[], false, some .eof⟩] [[⟨"T,x".data, false, some .eof⟩]]).2 (by decide)⟩

/-- A state whose request-id counter sits at the largest Go `int64` value. -/
def stMax : IQC := ⟨fun _ => none, 9223372036854775807, ""⟩

/-- A small concrete state for the request-id witness. -/
def st41 : IQC := ⟨fun _ => none, 41, ""⟩

/-- Counterexample to C9 as stated: `previousRequestId` is a Go `int64`, so
at its maximum value the wrapping add of `incr` produces the minimum value —
not the prior value plus one, and not a strictly larger integer. -/
theorem c9_incr_overflow :
    (incr stMax).1.previousRequestId = -9223372036854775808 ∧
    (incr stMax).1.previousRequestId ≠ stMax.previousRequestId + 1 ∧
    ¬ stMax.previousRequestId < (incr stMax).1.previousRequestId := by
  refine ⟨by decide, by decide, by decide⟩

/-- C9 (amended): as long as the counter has not reached the largest `int64`
value, each call to `incr` sets `previousRequestId` to its prior value plus
one — strictly larger than before — and sets `requestId` (also the returned
string) to the decimal representation of that new value. -/
theorem c9_incr_monotone (c : IQC)
    (hlo : -9223372036854775808 ≤ c.previousRequestId)
    (hhi : c.previousRequestId < 9223372036854775807) :
    (incr c).1.previousRequestId = c.previousRequestId + 1 ∧
    (incr c).1.requestId = toString (c.previousRequestId + 1) ∧
    (incr c).2 = toString (c.previousRequestId + 1) ∧
    c.previousRequestId < (incr c).1.previousRequestId := by
  have hwrap : int64Wrap (c.previousRequestId + 1) = c.previousRequestId + 1 := by
    rw [int64Wrap]
    omega
  refine ⟨?_, ?_, ?_, ?_⟩ <;> simp only [incr, hwrap]
  omega

/-- Witness for C9 at a counter value of 41. -/
theorem c9_incr_monotone_witness :
    (incr st41).1.previousRequestId = st41.previousRequestId + 1 ∧
    (incr st41).1.requestId = toString (st41.previousRequestId + 1) ∧
    (incr st41).2 = toString (st41.previousRequestId + 1) ∧
    st41.previousRequestId < (incr st41).1.previousRequestId :=
  c9_incr_monotone st41 (by decide) (by decide)

/-- C10: for every valid month (the twelve values `time.Month.String()` can
produce for a real `time.Time`), `getCallChar` returns the single letter
`A`..`L` and `getPutChar` the single letter `M`..`X` determined by the month
alone, the put letter sitting exactly 12 alphabet positions after the call
letter; the January letters arise from the January case, and the fallback
branch (returning the January letters) is reached only for strings that are
not a valid month name. -/
theorem c10_option_month_chars (m : Fin 12) (s : String)
    (hs : ∀ k : Fin 12, s ≠ monthName k) :
    (getCallChar (monthName m) = String.mk [Char.ofNat (65 + m.val)] ∧
     getPutChar (monthName m) = String.mk [Char.ofNat (77 + m.val)] ∧
     (getPutChar (monthName m)).data.headI.toNat =
       (getCallChar (monthName m)).data.headI.toNat + 12) ∧
    (getCallChar s = "A" ∧ getPutChar s = "M") := by
  constructor
  · revert m
    decide
  · have h0 : s ≠ "January" := hs 0
    have h1 : s ≠ "February" := hs 1
    have h2 : s ≠ "March" := hs 2
    have h3 : s ≠ "April" := hs 3
    have h4 : s ≠ "May" := hs 4
    have h5 : s ≠ "June" := hs 5
    have h6 : s ≠ "July" := hs 6
    have h7 : s ≠ "August" := hs 7
    have h8 : s ≠ "September" := hs 8
    have h9 : s ≠ "October" := hs 9
    have h10 : s ≠ "November" := hs 10
    have h11 : s ≠ "December" := hs 11
    constructor
    · simp [getCallChar, h0, h1, h2, h3, h4, h5, h6, h7, h8, h9, h10, h11]
    · simp [getPutChar, h0, h1, h2, h3, h4, h5, h6, h7, h8, h9, h10, h11]

/-- Witness for C10 at April and a non-month string. -/
theorem c10_option_month_chars_witness :
    (getCallChar (monthName 3) = String.mk [Char.ofNat (65 + (3 : Fin 12).val)] ∧
     getPutChar (monthName 3) = String.mk [Char.ofNat (77 + (3 : Fin 12).val)] ∧
     (getPutChar (monthName 3)).data.headI.toNat =
       (getCallChar (monthName 3)).data.headI.toNat + 12) ∧
    (getCallChar "Smarch" = "A" ∧ getPutChar "Smarch" = "M") :=
  c10_option_month_chars 3 "Smarch" (by decide)

/-- Counterexample to C8 as stated: `Q,a,b,Not Found` is a record of length
at least 3 whose first byte is a recognized marker and which is not an
S-marker control record, yet its single push goes to the Errors queue — not
to the Updates queue matching the Q marker — and carries an ErrorMsg built
from comma field 0, not a message built from the bytes at offset 2 onward. -/
theorem c8_one_push_counterexample :
    processReceiver st0 ('Q' :: ',' :: "a,b,Not Found".data) =
      some (st0, [(Queue.errors, Msg.err (ErrorMsg.unMarshall true "a" 404))]) ∧
    Queue.errors ≠ Queue.updates ∧
    Msg.err (ErrorMsg.unMarshall true "a" 404) ≠
      Msg.update (splitComma (('Q' :: ',' :: "a,b,Not Found".data).drop 2)) :=
  ⟨rfl, by decide, by decide⟩

/-- C8 (amended): for every record of length at least 3: a P, T, R, F, N, n
or E marker pushes exactly one message, built from the bytes at offset 2
onward, onto the single queue matching the marker, leaving the state
unchanged; a Q marker does the same (onto Updates) when its payload has more
than 2 comma fields none of which makes it a Not-Found record, while a
Q-record with field 2 equal to `Not Found` pushes one 404 ErrorMsg built
from field 0 onto Errors instead; an S-marker control record pushes nothing
(only `DynFields` changes); a non-control S record pushes one SystemMessage
onto System; and a record whose first byte is none of the nine recognized
markers is dropped with no push and no state change. -/
theorem c8_one_push (c : IQC) (l : List Char) (h3 : 3 ≤ l.length) :
    (l.headI = 'P' → processReceiver c l =
      some (c, [(.updates, .update (splitComma (l.drop 2)))])) ∧
    (l.headI = 'T' → processReceiver c l =
      some (c, [(.time, .timeSync (String.mk (l.drop 2)))])) ∧
    (l.headI = 'R' → processReceiver c l =
      some (c, [(.regional, .regional (String.mk (l.drop 2)))])) ∧
    (l.headI = 'F' → processReceiver c l =
      some (c, [(.fundamental, .fundamental (String.mk (l.drop 2)))])) ∧
    (l.headI = 'N' → processReceiver c l =
      some (c, [(.news, .news (String.mk (l.drop 2)))])) ∧
    (l.headI = 'n' → processReceiver c l =
      some (c, [(.errors, .err (ErrorMsg.unMarshall true (String.mk (l.drop 2)) 404))])) ∧
    (l.headI = 'E' → processReceiver c l =
      some (c, [(.errors, .err (ErrorMsg.unMarshall false (String.mk (l.drop 2)) 500))])) ∧
    (l.headI = 'Q' → 2 < (splitComma (l.drop 2)).length →
      (splitComma (l.drop 2)).getD 2 "" ≠ "Not Found" →
      processReceiver c l = some (c, [(.updates, .update (splitComma (l.drop 2)))])) ∧
    (l.headI = 'Q' → 2 < (splitComma (l.drop 2)).length →
      (splitComma (l.drop 2)).getD 2 "" = "Not Found" →
      processReceiver c l = some (c, [(.errors,
        .err (ErrorMsg.unMarshall true (String.mk ((splitComma (l.drop 2)).headI).data) 404))])) ∧
    (l.headI = 'S' →
      ((splitComma (l.drop 2)).headI = "UPDATE FIELDNAMES" ∨
       (splitComma (l.drop 2)).headI = "CURRENT UPDATE FIELDNAMES") →
      ∃ f, processReceiver c l = some ({ c with DynFields := f }, [])) ∧
    (l.headI = 'S' →
      (splitComma (l.drop 2)).headI ≠ "UPDATE FIELDNAMES" →
      (splitComma (l.drop 2)).headI ≠ "CURRENT UPDATE FIELDNAMES" →
      processReceiver c l = some (c, [(.system, .system (String.mk (l.drop 2)))])) ∧
    (l.headI ≠ 'S' → l.headI ≠ 'P' → l.headI ≠ 'Q' → l.headI ≠ 'T' →
      l.headI ≠ 'R' → l.headI ≠ 'F' → l.headI ≠ 'N' → l.headI ≠ 'n' →
      l.headI ≠ 'E' → processReceiver c l = some (c, [])) := by
  have hlen : ¬ l.length < 3 := by omega
  refine ⟨?_, ?_, ?_, ?_, ?_, ?_, ?_, ?_, ?_, ?_, ?_, ?_⟩
  · intro hm
    simp only [processReceiver]
    rw [if_neg hlen, hm]
    rfl
  · intro hm
    simp only [processReceiver]
    rw [if_neg hlen, hm]
    rfl
  · intro hm
    simp only [processReceiver]
    rw [if_neg hlen, hm]
    rfl
  · intro hm
    simp only [processReceiver]
    rw [if_neg hlen, hm]
    rfl
  · intro hm
    simp only [processReceiver]
    rw [if_neg hlen, hm]
    rfl
  · intro hm
    simp only [processReceiver]
    rw [if_neg hlen, hm]
    rfl
  · intro hm
    simp only [processReceiver]
    rw [if_neg hlen, hm]
    rfl
  · intro hm hq hnf
    have hstep : processReceiver c l = processUpdMsg c (l.drop 2) := by
      simp only [processReceiver]
      rw [if_neg hlen, hm]
      rfl
    rw [hstep, processUpdMsg, if_pos hq, if_neg hnf]
  · intro hm hq hnf
    have hstep : processReceiver c l = processUpdMsg c (l.drop 2) := by
      simp only [processReceiver]
      rw [if_neg hlen, hm]
      rfl
    rw [hstep, processUpdMsg, if_pos hq, if_pos hnf]
    rfl
  · intro hm hctl
    refine ⟨storeFields c.DynFields 0 (splitComma (l.drop 2)).tail, ?_⟩
    have hstep : processReceiver c l = some (processSysMsg c (l.drop 2)) := by
      simp only [processReceiver]
      rw [if_neg hlen, hm]
      rfl
    rw [hstep]
    rcases hctl with h | h
    · rw [processSysMsg, if_pos h]
    · by_cases h2 : (splitComma (l.drop 2)).headI = "UPDATE FIELDNAMES"
      · rw [processSysMsg, if_pos h2]
      · rw [processSysMsg, if_neg h2, if_pos h]
  · intro hm hu hcu
    have hstep : processReceiver c l = some (processSysMsg c (l.drop 2)) := by
      simp only [processReceiver]
      rw [if_neg hlen, hm]
      rfl
    rw [hstep, processSysMsg, if_neg hu, if_neg hcu]
  · intro u1 u2 u3 u4 u5 u6 u7 u8 u9
    simp only [processReceiver]
    rw [if_neg hlen, if_neg u1, if_neg u2, if_neg u3, if_neg u4, if_neg u5,
        if_neg u6, if_neg u7, if_neg u8, if_neg u9]

/-- Witness for C8 at the concrete summary record `P,AAPL`. -/
theorem c8_one_push_witness :
    processReceiver st0 ("P,AAPL".data) =
      some (st0, [(.updates, .update (splitComma (("P,AAPL".data).drop 2)))]) :=
  (c8_one_push st0 "P,AAPL".data (by decide)).1 rfl

end IQFeed
